import Mathlib

/-!
Verification of the SignalSafe ai-service risk-scoring core.

This file gives a shallow embedding, in Lean 4, of the stateful risk-scoring
engine of the ai-service: the clustering statistics tracker
(`app/services/clustering_service.py`), the escalation metrics compositor
(`app/services/escalation_service.py`), the anomaly detector
(`app/services/anomaly_service.py`) and the orchestrating endpoint
(`app/routers/analyze.py`).  Python floats are modelled as rationals (`ℚ`);
the two places where the code takes a square root (`np.std`) are modelled
with `Real.sqrt`, so those values live in `ℝ`.  The external collaborators
(embedding provider, sentiment provider, and the HDBSCAN/DBSCAN clusterer
for batches of at least 3 posts) are opaque per the design document and are
passed in as inputs/oracles.  `round(x, 2)` is modelled as rounding
`x * 100` to the nearest integer (tie behaviour is immaterial to every
statement below, none of which sits on a tie).
-/

namespace SignalSafe

/-- Arithmetic mean of a list of rationals, `np.mean`; division by zero in `ℚ`
yields `0`, matching the fact that the code never takes a mean of an empty
list on the paths modelled here. -/
def meanQ (l : List ℚ) : ℚ := l.sum / l.length

/-- Population variance of a list of rationals; `np.std` is
`Real.sqrt (popVar l)`. -/
def popVar (l : List ℚ) : ℚ := meanQ (l.map (fun x => (x - meanQ l) ^ 2))

/-- Appending a list to a `collections.deque` with `maxlen = cap`: keep only
the `cap` most recent elements. -/
def boundedExtend (cap : ℕ) (w l : List α) : List α :=
  let r := w ++ l
  r.drop (r.length - cap)

/-- Python `round(x, 2)` on a rational value. -/
def round2 (x : ℚ) : ℚ := ((round (x * 100) : ℤ) : ℚ) / 100

/-- Python `round(x, 2)` on a real value. -/
noncomputable def round2R (x : ℝ) : ℝ := ((round (x * 100) : ℤ) : ℝ) / 100

/-! ### Clustering service (`app/services/clustering_service.py`) -/

/-- Stop-word list hard-coded in `ClusteringService._extract_keywords`. -/
def stop_words : List String :=
  ["this", "that", "with", "from", "have", "been", "will", "just", "about"]

/-- Word characters for the regex `\b` boundary test: `[a-zA-Z0-9_]`.
Python's `\b` is Unicode-aware; Lean's `Char.isAlphanum` is ASCII, so this
model coincides with the source on ASCII text (a non-ASCII neighbour of a
run is treated as a non-word character). -/
def isWordChar (c : Char) : Bool := c.isAlphanum || c == '_'

/-- Maximal runs of `[a-zA-Z]` characters in a character stream, each paired
with the character immediately preceding the run and the character
immediately following it (`none` at either end of the stream); by
maximality those neighbours are never alphabetic.  The accumulator `acc`
holds the current run reversed and `pre` the character preceding it. -/
def alphaRuns : List Char → Option Char → List Char →
    List (Option Char × List Char × Option Char)
  | [], pre, acc => if acc = [] then [] else [(pre, acc.reverse, none)]
  | c :: cs, pre, acc =>
      if c.isAlpha then alphaRuns cs pre (c :: acc)
      else if acc = [] then alphaRuns cs (some c) []
      else (pre, acc.reverse, some c) :: alphaRuns cs (some c) []

/-- The `\b` word-boundary test against the neighbour of an alphabetic run:
a boundary exists at either end of the string and against any non-word
character. -/
def boundary_ok : Option Char → Bool
  | none => true
  | some c => !(isWordChar c)

/-- Tokenization in `_extract_keywords`:
`re.findall(r'\b[a-zA-Z]{4,}\b', text.lower())`.  A match of this pattern is
a maximal alphabetic run of length at least 4 with a word boundary on both
sides: a run flanked by a digit or an underscore (word characters) has no
boundary there and yields no token — `covid19` produces nothing, not
`covid`.  Lowercasing is done character by character, which agrees with
`str.lower` on the ASCII runs the regex matches. -/
def tokenize (text : String) : List String :=
  (((alphaRuns (text.data.map Char.toLower) none []).filter
      (fun r => boundary_ok r.1 && boundary_ok r.2.2)).map
    (fun r => String.mk r.2.1)).filter (fun w => 4 ≤ w.length)

/-- One step of the frequency count `word_freq[word] = word_freq.get(word, 0) + 1`
on an insertion-ordered association list (Python dicts preserve insertion
order): increment the count of `w` if present, else append `(w, 1)` at the
end. -/
def bump (w : String) : List (String × ℕ) → List (String × ℕ)
  | [] => [(w, 1)]
  | (k, n) :: rest => if k = w then (k, n + 1) :: rest else (k, n) :: bump w rest

/-- The `word_freq` dictionary of `_extract_keywords`: for every text, for
every token, skip stop words and bump the count.  The resulting association
list is in first-encounter order of the retained tokens. -/
def wordFreq (texts : List String) : List (String × ℕ) :=
  texts.foldl
    (fun acc text =>
      (tokenize text).foldl
        (fun a w => if w ∈ stop_words then a else bump w a) acc)
    []

/-- Comparison used to model
`sorted(word_freq.items(), key=lambda x: x[1], reverse=True)`:
Python's sort is stable, which is the same as sorting entries tagged with
their original index, descending by count and ascending by index on ties. -/
def freqLE (a b : ℕ × (String × ℕ)) : Bool :=
  decide (b.2.2 < a.2.2 ∨ (a.2.2 = b.2.2 ∧ a.1 ≤ b.1))

/-- `ClusteringService._extract_keywords`: count token frequencies across all
texts of the cluster, sort descending by frequency (stable, hence ties in
first-encounter order) and return the first 5 words. -/
def extract_keywords (texts : List String) : List String :=
  (((wordFreq texts).enum.mergeSort freqLE).take 5).map (fun a => a.2.1)

/-- One summary dictionary produced by `ClusteringService.get_cluster_info`
(the `ClusterOutput` schema of `app/models/schemas.py`).  `volatilityIndex`
is a standard deviation, hence real-valued in this model. -/
structure ClusterSummary where
  clusterId : String
  keywords : List String
  size : ℕ
  avgSentiment : ℚ
  growthRate : ℚ
  volatilityIndex : ℝ

/-- The `previous_sizes` dictionary of `ClusteringService`, read only through
`previous_sizes.get(cluster_id, 0)`; modelled as a total function defaulting
to 0. -/
def Memory : Type := String → ℕ

/-- Body of the per-label loop of `ClusteringService.get_cluster_info`: gather
the members of `label`, compute average sentiment, keywords, size, growth rate
against `previous_sizes` and volatility, and overwrite
`previous_sizes[cluster_id] = size`. -/
noncomputable def cluster_info_step (labels : List ℤ) (texts : List String)
    (sentiments : List ℚ) (mem : Memory) (label : ℤ) : ClusterSummary × Memory :=
  let cluster_texts := ((labels.zip texts).filter (fun p => decide (p.1 = label))).map (fun p => p.2)
  let cluster_sentiments := ((labels.zip sentiments).filter (fun p => decide (p.1 = label))).map (fun p => p.2)
  let avg_sentiment := meanQ cluster_sentiments
  let keywords := extract_keywords cluster_texts
  let size := (labels.filter (fun l => decide (l = label))).length
  let cluster_id := "cluster-" ++ toString label
  let prev_size := mem cluster_id
  let growth_rate := (((size : ℚ) - (prev_size : ℚ)) / max (prev_size : ℚ) 1) * 100
  let volatility : ℝ := Real.sqrt (popVar cluster_sentiments)
  (⟨cluster_id, keywords, size, avg_sentiment, growth_rate, volatility⟩,
   fun k => if k = cluster_id then size else mem k)

/-- Iteration domain `set(labels)` of `get_cluster_info`, modelled as the
labels deduplicated in first-occurrence order.  The design document states
the iteration order of the label set is immaterial, and no claim below
depends on it. -/
def unique_labels (labels : List ℤ) : List ℤ :=
  labels.foldl (fun acc x => if x ∈ acc then acc else acc ++ [x]) []

/-- `ClusteringService.get_cluster_info`: one summary per non-noise label
(label `-1` is skipped), threading the `previous_sizes` memory through the
loop. -/
noncomputable def get_cluster_info (labels : List ℤ) (texts : List String)
    (sentiments : List ℚ) (mem : Memory) : List ClusterSummary × Memory :=
  (unique_labels labels).foldl
    (fun acc label =>
      if label = -1 then acc
      else
        let r := cluster_info_step labels texts sentiments acc.2 label
        (acc.1 ++ [r.1], r.2))
    ([], mem)

/-- Labels returned by `ClusteringService.cluster` for a batch of fewer than
3 embeddings: `np.zeros(len(embeddings), dtype=int)` together with a cluster
count of 0 (the count is not consumed by `get_cluster_info`). -/
def small_batch_labels (n : ℕ) : List ℤ := List.replicate n 0

/-! ### Escalation service (`app/services/escalation_service.py`) -/

/-- State of `EscalationService`: the `sentiment_history` deque
(`maxlen = 20`).  The `volume_history` deque created in `__init__` is never
read or written by any method and is kept only for structural fidelity. -/
structure EscalationState where
  sentiment_history : List ℚ
  volume_history : List ℚ

/-- `EscalationService.compute_sentiment_acceleration`.  Note the order of
operations in the source: the early return on fewer than 2 input sentiments
happens before the history is extended, and when the history holds at least
5 values the code averages the 4 first differences
`history[-i] - history[-i-1]`, `i = 1..4`, and takes the absolute value of
that mean. -/
def compute_sentiment_acceleration (s : EscalationState) (sentiments : List ℚ) :
    ℚ × EscalationState :=
  if sentiments.length < 2 then (0, s)
  else
    let hist := boundedExtend 20 s.sentiment_history sentiments
    let s' : EscalationState := { s with sentiment_history := hist }
    let recent_avg := meanQ (hist.drop (hist.length - 10))
    if 5 ≤ hist.length then
      let r := hist.reverse
      let first_derivative := (List.range 4).map (fun k => r.getD k 0 - r.getD (k + 1) 0)
      let acceleration := |meanQ first_derivative|
      (min 100 (acceleration * 200), s')
    else if recent_avg < -(3 / 10) then (min 100 (|recent_avg| * 100), s')
    else (0, s')

/-- `EscalationService.compute_cluster_growth_rate`: mean growth rate over the
provided summaries, 0 when there are none. -/
def compute_cluster_growth_rate (clusters : List ClusterSummary) : ℚ :=
  if clusters.isEmpty then 0 else meanQ (clusters.map (fun c => c.growthRate))

/-- `EscalationService.compute_narrative_spread_speed`. -/
def compute_narrative_spread_speed (clusters : List ClusterSummary) (volume : ℕ) : ℚ :=
  if clusters.isEmpty ∨ volume = 0 then 0
  else
    let num_clusters := clusters.length
    let total_posts := (clusters.map (fun c => c.size)).sum
    let cluster_factor : ℚ := min 50 ((num_clusters : ℚ) * 10)
    let size_factor : ℚ := min 30 (((total_posts : ℚ) / (volume : ℚ)) * 30)
    let viral_factor : ℚ :=
      min 20 (((clusters.countP (fun c => decide (50 < c.growthRate))) : ℚ) * 5)
    cluster_factor + size_factor + viral_factor

/-- The metrics dictionary returned by `EscalationService.compute_metrics`. -/
structure EscalationMetrics where
  sentimentAcceleration : ℚ
  clusterGrowthRate : ℚ
  narrativeSpreadSpeed : ℚ

/-- `EscalationService.compute_metrics`. -/
def compute_metrics (s : EscalationState) (sentiments : List ℚ)
    (clusters : List ClusterSummary) (current_volume : ℕ) :
    EscalationMetrics × EscalationState :=
  let r := compute_sentiment_acceleration s sentiments
  (⟨r.1, compute_cluster_growth_rate clusters,
    compute_narrative_spread_speed clusters current_volume⟩, r.2)

/-! ### Anomaly service (`app/services/anomaly_service.py`) -/

/-- State of `AdvancedAnomalyService`.  The sklearn `StandardScaler` and
`IsolationForest` objects are opaque collaborators; their observable
behaviour enters `detect_advanced` through an oracle (`IforestOutcome`).
`std_volume` is a standard deviation, hence real-valued in this model. -/
structure AnomalyState where
  window_size : ℕ
  volume_history : List ℤ
  sentiment_accel_history : List ℚ
  growth_rate_history : List ℚ
  mean_volume : ℚ
  std_volume : ℝ
  feature_buffer : List (List ℚ)
  use_fallback : Bool

/-- `AdvancedAnomalyService.__init__`: empty windows, statistics `(0, 1)`,
and `use_fallback = not SKLEARN_AVAILABLE` (constructing the sklearn objects
only stores parameters and does not fail). -/
def anomalyInit (sklearn_available : Bool) (window_size : ℕ) : AnomalyState :=
  ⟨window_size, [], [], [], 0, 1, [], !sklearn_available⟩

/-- Observable outcome of the Isolation-Forest fit/score block for one call:
either some exception is raised inside it, or it scores the current
standardized vector with raw score `raw`. -/
inductive IforestOutcome where
  | raises
  | scores (raw : ℚ)

/-- `AdvancedAnomalyService._extract_features`. -/
def extract_features (volume : ℤ) (sentiment_accel growth_rate : ℚ) : List ℚ :=
  [(volume : ℚ), sentiment_accel, growth_rate]

/-- `AdvancedAnomalyService._detect_zscore`: the fallback univariate path.
Returns the score and the state with `mean_volume` / `std_volume` updated
(they are assigned before the near-zero-variance guard). -/
noncomputable def detect_zscore (s : AnomalyState) (current_volume : ℤ) :
    ℝ × AnomalyState :=
  if s.volume_history.length < 5 then (0, s)
  else
    let m := meanQ (s.volume_history.map (fun v : ℤ => (v : ℚ)))
    let d : ℝ := Real.sqrt (popVar (s.volume_history.map (fun v : ℤ => (v : ℚ))))
    let s' : AnomalyState := { s with mean_volume := m, std_volume := d }
    let z : ℝ := ((current_volume : ℝ) - (m : ℝ)) / d
    (if d < 1 / 10 then 0 else round2R (min 100 (max 0 ((|z| / 3) * 100))), s')

/-- Score component of `_detect_zscore` as a function of the volume history
alone (the returned score reads no other state field); used to state and
reuse facts about the fallback score. -/
noncomputable def zscore_value (hist : List ℤ) (current_volume : ℤ) : ℝ :=
  if hist.length < 5 then 0
  else
    let m := meanQ (hist.map (fun v : ℤ => (v : ℚ)))
    let d : ℝ := Real.sqrt (popVar (hist.map (fun v : ℤ => (v : ℚ))))
    let z : ℝ := ((current_volume : ℝ) - (m : ℝ)) / d
    if d < 1 / 10 then 0 else round2R (min 100 (max 0 ((|z| / 3) * 100)))

/-- `AdvancedAnomalyService.detect`, the backwards-compatible entry point used
by the analyze endpoint: it goes straight to `_detect_zscore` and in
particular never appends to any history. -/
noncomputable def detect (s : AnomalyState) (current_volume : ℤ) : ℝ × AnomalyState :=
  detect_zscore s current_volume

/-- `AdvancedAnomalyService.detect_advanced`.  The call first appends the
observation to the three history deques.  If the detector is not in fallback
mode and the volume history holds at least `min_samples_for_iforest = 10`
entries, the feature vector is appended to `feature_buffer` (truncated to
`window_size`); only when the buffer itself holds at least 10 vectors does
the Isolation-Forest block run, with outcome `oc`: on an exception,
`use_fallback` is set permanently and control falls through to the z-score
path, otherwise the raw score is mapped through
`max(0, min(100, (0.5 - raw) * 200))` and rounded.  In every other case the
call falls through to `_detect_zscore`. -/
noncomputable def detect_advanced (oc : IforestOutcome) (s : AnomalyState)
    (current_volume : ℤ) (sentiment_acceleration cluster_growth_rate : ℚ) :
    ℝ × AnomalyState :=
  let s1 : AnomalyState :=
    { s with
      volume_history := boundedExtend s.window_size s.volume_history [current_volume]
      sentiment_accel_history :=
        boundedExtend s.window_size s.sentiment_accel_history [sentiment_acceleration]
      growth_rate_history :=
        boundedExtend s.window_size s.growth_rate_history [cluster_growth_rate] }
  let features := extract_features current_volume sentiment_acceleration cluster_growth_rate
  if s1.use_fallback = false ∧ 10 ≤ s1.volume_history.length then
    let buf1 := s1.feature_buffer ++ [features]
    let buf2 := if s1.window_size < buf1.length then buf1.drop (buf1.length - s1.window_size) else buf1
    let s2 : AnomalyState := { s1 with feature_buffer := buf2 }
    if 10 ≤ buf2.length then
      match oc with
      | .raises => detect_zscore { s2 with use_fallback := true } current_volume
      | .scores raw =>
          (round2R (max 0 (min 100 ((1 / 2 - (raw : ℝ)) * 200))), s2)
    else detect_zscore s2 current_volume
  else detect_zscore s1 current_volume

/-- `AdvancedAnomalyService.reset`: clear every window and the feature buffer
and reset the statistics to `(mean = 0, std = 1)`.  The trailing conditional
of the source (`if not self.use_fallback and SKLEARN_AVAILABLE`) only
re-creates the opaque sklearn objects, which cannot fail at construction, so
`use_fallback` is left unchanged in every branch. -/
def reset (sklearn_available : Bool) (s : AnomalyState) : AnomalyState :=
  { s with
    volume_history := []
    sentiment_accel_history := []
    growth_rate_history := []
    feature_buffer := []
    mean_volume := 0
    std_volume := 1 }

/-- Folds a sequence of `detect_advanced` calls (outcome oracle, volume,
sentiment acceleration, growth rate) over the detector state, returning the
last score and the final state. -/
noncomputable def run_advanced (calls : List (IforestOutcome × ℤ × ℚ × ℚ))
    (s : AnomalyState) : ℝ × AnomalyState :=
  calls.foldl (fun acc c => detect_advanced c.1 acc.2 c.2.1 c.2.2.1 c.2.2.2) (0, s)

/-! ### Analyze endpoint (`app/routers/analyze.py`) -/

/-- The mutable service state touched by one `/analyze` request: the
clustering service's `previous_sizes`, the escalation service's windows and
the anomaly service's state. -/
structure AnalyzeState where
  clustering : Memory
  escalation : EscalationState
  anomaly : AnomalyState

/-- The `metrics` object of the response (`MetricsOutput` in
`app/models/schemas.py`). -/
structure MetricsOutput where
  sentimentAcceleration : ℚ
  clusterGrowthRate : ℚ
  anomalyScore : ℝ
  narrativeSpreadSpeed : ℚ

/-- The parts of the `/analyze` response the core produces: cluster summaries
and metrics.  The `enrichedPosts` echo of the external embedding/sentiment
providers' outputs carries no core state and is omitted. -/
structure AnalyzeResponse where
  clusters : List ClusterSummary
  metrics : MetricsOutput

/-- `analyze_posts` (`app/routers/analyze.py`).  `texts` and `sentiments` are
the outputs of the external embedding/sentiment providers for the batch;
`cluster_oracle` is the label list the external clusterer would return for
the batch's embeddings, consulted only when the batch has at least 3 posts —
for fewer than 3 posts `ClusteringService.cluster` returns all-zero labels
without invoking it.  An empty batch short-circuits to an all-zero response.
The anomaly score is produced by `anomaly_service.detect(current_volume)`,
the z-score-only entry point. -/
noncomputable def analyze (cluster_oracle : List ℤ) (texts : List String)
    (sentiments : List ℚ) (st : AnalyzeState) : AnalyzeResponse × AnalyzeState :=
  if texts = [] then (⟨[], ⟨0, 0, 0, 0⟩⟩, st)
  else
    let labels :=
      if texts.length < 3 then small_batch_labels texts.length else cluster_oracle
    let ci := get_cluster_info labels texts sentiments st.clustering
    let current_volume := texts.length
    let an := detect st.anomaly (current_volume : ℤ)
    let em := compute_metrics st.escalation sentiments ci.1 current_volume
    (⟨ci.1,
      ⟨em.1.sentimentAcceleration, em.1.clusterGrowthRate, an.1,
       em.1.narrativeSpreadSpeed⟩⟩,
     ⟨ci.2, em.2, an.2⟩)

/-- Service state at startup: fresh singletons of every service, with sklearn
available and the default `window_size = 50`. -/
def fresh_state : AnalyzeState :=
  ⟨fun _ => 0, ⟨[], []⟩, anomalyInit true 50⟩

/-- Runs a sequence of `/analyze` batches (each batch: clusterer oracle,
texts, sentiments) through the service state, collecting the responses. -/
noncomputable def analyze_seq (batches : List (List ℤ × List String × List ℚ))
    (st : AnalyzeState) : List AnalyzeResponse × AnalyzeState :=
  batches.foldl
    (fun acc b =>
      let r := analyze b.1 b.2.1 b.2.2 acc.2
      (acc.1 ++ [r.1], r.2))
    ([], st)

/-! ### Claim-side formulas written from the specification's words -/

/-- Modelled from the spec (sentiment-acceleration clause of
`computeMetrics`): the mean of the absolute values of the 4 first differences
over the 5 most recent window entries, scaled by 200 and clamped to 100.
This is the value the specification ascribes to the window-at-least-5 branch;
the source takes the absolute value of the mean instead. -/
def sentiment_accel_spec (window : List ℚ) : ℚ :=
  let r := window.reverse
  min 100 (meanQ ((List.range 4).map (fun k => |r.getD k 0 - r.getD (k + 1) 0|)) * 200)

/-- Modelled from the spec (multivariate branch of the anomaly detector): the
raw outlier score `s` mapped through `clamp(0, 100, (0.5 - s) * 200)` and
rounded to 2 decimal places. -/
noncomputable def multivariate_score_spec (raw : ℚ) : ℝ :=
  round2R (max 0 (min 100 ((1 / 2 - (raw : ℝ)) * 200)))

/-- Combined frequency of a word across all texts of a cluster: its count in
the `word_freq` dictionary, 0 when absent. -/
def clusterFreq (texts : List String) (w : String) : ℕ :=
  ((wordFreq texts).lookup w).getD 0

/-- Position of a word in the `word_freq` dictionary, i.e. the
first-encountered order of the retained tokens during the frequency scan. -/
def first_seen (texts : List String) (w : String) : ℕ :=
  (wordFreq texts).findIdx (fun p => p.1 == w)

/-! ### General lemmas -/

theorem meanQ_replicate (n : ℕ) (x : ℚ) (hn : n ≠ 0) :
    meanQ (List.replicate n x) = x := by
  have hq : (n : ℚ) ≠ 0 := Nat.cast_ne_zero.mpr hn
  unfold meanQ
  rw [List.sum_replicate, List.length_replicate, nsmul_eq_mul, mul_comm,
    mul_div_assoc, div_self hq, mul_one]

theorem popVar_replicate (n : ℕ) (x : ℚ) : popVar (List.replicate n x) = 0 := by
  cases n with
  | zero => simp [popVar, meanQ]
  | succ m =>
      unfold popVar
      rw [meanQ_replicate (m + 1) x (Nat.succ_ne_zero m), List.map_replicate,
        sub_self, zero_pow (by norm_num)]
      simp [meanQ, List.sum_replicate]

theorem length_boundedExtend (cap : ℕ) (w l : List α) :
    (boundedExtend cap w l).length = min (w.length + l.length) cap := by
  simp [boundedExtend]
  omega

theorem detect_zscore_fst (s : AnomalyState) (v : ℤ) :
    (detect_zscore s v).1 = zscore_value s.volume_history v := by
  unfold detect_zscore zscore_value
  by_cases h : s.volume_history.length < 5 <;> simp [h]

theorem detect_zscore_snd_volume_history (s : AnomalyState) (v : ℤ) :
    (detect_zscore s v).2.volume_history = s.volume_history := by
  unfold detect_zscore
  by_cases h : s.volume_history.length < 5 <;> simp [h]

theorem zscore_value_short (hist : List ℤ) (v : ℤ) (h : hist.length < 5) :
    zscore_value hist v = 0 := by
  unfold zscore_value
  simp [h]

theorem zscore_value_replicate (n : ℕ) (c v : ℤ) (h5 : 5 ≤ n) :
    zscore_value (List.replicate n c) v = 0 := by
  unfold zscore_value
  rw [if_neg (by simp; omega), List.map_replicate, popVar_replicate]
  norm_num [Real.sqrt_zero]

theorem zscore_value_eq_replicate (hist : List ℤ) (n : ℕ) (c v : ℤ)
    (h : hist = List.replicate n c) (h5 : 5 ≤ n) : zscore_value hist v = 0 := by
  rw [h]
  exact zscore_value_replicate n c v h5

/-! ### Claim C4 -/

/-- C4 counterexample: the claim says that after `reset()`, whenever the
multivariate capability is available, the detector is in `Multivariate` mode
again even if it had previously transitioned to `Fallback`.  In the code,
`reset` re-initializes the Isolation Forest only under
`if not self.use_fallback and SKLEARN_AVAILABLE` and never clears
`use_fallback`, so a detector that reached `Fallback` (here: a fresh detector
with sklearn available, driven through 18 successful calls and one call whose
Isolation-Forest block raises) stays in `Fallback` after `reset`. -/
theorem c4_counterexample :
    (run_advanced
        (List.replicate 18 (IforestOutcome.scores 0, (5 : ℤ), (0 : ℚ), (0 : ℚ)) ++
          [(IforestOutcome.raises, (5 : ℤ), (0 : ℚ), (0 : ℚ))])
        (anomalyInit true 50)).2.use_fallback = true ∧
    (reset true (run_advanced
        (List.replicate 18 (IforestOutcome.scores 0, (5 : ℤ), (0 : ℚ), (0 : ℚ)) ++
          [(IforestOutcome.raises, (5 : ℤ), (0 : ℚ), (0 : ℚ))])
        (anomalyInit true 50)).2).use_fallback = true := by
  exact ⟨rfl, rfl⟩

/-- C4 amended: `reset` clears every window and the feature buffer and resets
the statistics to `(mean = 0, std = 1)`, but leaves `use_fallback` unchanged
regardless of the availability of the multivariate capability: a detector in
`Fallback` mode stays in `Fallback` mode. -/
theorem c4_reset_state (sk : Bool) (s : AnomalyState) :
    (reset sk s).volume_history = [] ∧
    (reset sk s).sentiment_accel_history = [] ∧
    (reset sk s).growth_rate_history = [] ∧
    (reset sk s).feature_buffer = [] ∧
    (reset sk s).mean_volume = 0 ∧
    (reset sk s).std_volume = 1 ∧
    (reset sk s).use_fallback = s.use_fallback := by
  simp [reset]

/-! ### Claim C6 -/

/-- C6 counterexample: the claim says every call to `computeMetrics` appends
its input sentiments to the sentiment window, including calls with fewer than
2 sentiments.  In the code the early return `if len(sentiments) < 2` comes
before `self.sentiment_history.extend(sentiments)`, so a 1-sentiment call
leaves the window untouched. -/
theorem c6_counterexample :
    (compute_sentiment_acceleration ⟨[], []⟩ [9 / 10]).2.sentiment_history = [] ∧
    (compute_sentiment_acceleration ⟨[], []⟩ [9 / 10]).2.sentiment_history ≠
      boundedExtend 20 [] [9 / 10] := by
  constructor
  · rfl
  · intro h
    simp only [show (compute_sentiment_acceleration ⟨[], []⟩ [9 / 10]).2.sentiment_history
        = [] from rfl] at h
    exact absurd h (by simp [boundedExtend])

/-- C6 amended: a call to `compute_sentiment_acceleration` with at least 2
input sentiments extends the bounded sentiment window by exactly the input
sentiments (subject to the capacity-20 eviction), while a call with fewer
than 2 sentiments returns 0 and leaves the whole escalation state
unchanged. -/
theorem c6_sentiment_window_frame (s : EscalationState) (sentiments : List ℚ) :
    (2 ≤ sentiments.length →
      (compute_sentiment_acceleration s sentiments).2.sentiment_history =
        boundedExtend 20 s.sentiment_history sentiments) ∧
    (sentiments.length < 2 →
      (compute_sentiment_acceleration s sentiments).2 = s ∧
      (compute_sentiment_acceleration s sentiments).1 = 0) := by
  unfold compute_sentiment_acceleration
  by_cases h : sentiments.length < 2
  · simp [h]
  · refine ⟨fun _ => ?_, fun h2 => absurd h2 h⟩
    simp only [if_neg h]
    by_cases h5 : 5 ≤ (boundedExtend 20 s.sentiment_history sentiments).length
    · simp [h5]
    · by_cases hr : meanQ ((boundedExtend 20 s.sentiment_history sentiments).drop
          ((boundedExtend 20 s.sentiment_history sentiments).length - 10)) < -(3 / 10) <;>
        simp [h5, hr]

/-- C6 witness: instantiation of the amended statement on a 2-sentiment call
from the fresh escalation state. -/
theorem c6_witness :
    (compute_sentiment_acceleration ⟨[], []⟩ [9 / 10, -(9 / 10)]).2.sentiment_history =
      [9 / 10, -(9 / 10)] := by
  rw [(c6_sentiment_window_frame ⟨[], []⟩ [9 / 10, -(9 / 10)]).1 (by simp)]
  rfl

/-! ### Claim C9 -/

/-- C9: for every non-empty cluster list and non-zero volume, the narrative
spread speed is the unclamped sum of the cluster-count factor
`min(50, n * 10)`, the size factor `min(30, (total / volume) * 30)` and the
viral factor `min(20, count(growthRate > 50) * 5)`. -/
theorem c9_narrative_spread_speed (clusters : List ClusterSummary) (volume : ℕ)
    (hc : clusters ≠ []) (hv : volume ≠ 0) :
    compute_narrative_spread_speed clusters volume =
      min 50 ((clusters.length : ℚ) * 10) +
      min 30 (((((clusters.map (fun c => c.size)).sum : ℕ) : ℚ) / (volume : ℚ)) * 30) +
      min 20 (((clusters.countP (fun c => decide (50 < c.growthRate))) : ℚ) * 5) := by
  unfold compute_narrative_spread_speed
  rw [if_neg (by simp [List.isEmpty_iff, hc, hv])]

/-- C9 witness: the specification scenario — one cluster of size 10 with
growth rate 80 at volume 10 scores `10 + 30 + 5 = 45`. -/
theorem c9_witness :
    compute_narrative_spread_speed [⟨"cluster-0", [], 10, 0, 80, 0⟩] 10 = 45 := by
  rw [c9_narrative_spread_speed [⟨"cluster-0", [], 10, 0, 80, 0⟩] 10
    (by simp) (by norm_num)]
  norm_num [List.countP_cons]

/-! ### Claim C7 -/

/-- C7: a cluster summarized by `get_cluster_info` with member count `S`,
whose id has previous recorded size `P` (default 0), reports
`growthRate = (S - P) / max(P, 1) * 100`, and the growth memory holds `S`
for that id afterwards; in particular a first-ever appearance reports
`S * 100`. -/
theorem c7_growth_rate_memory (labels : List ℤ) (texts : List String)
    (sentiments : List ℚ) (mem : Memory) (label : ℤ)
    (hmem : label ∈ labels) :
    (cluster_info_step labels texts sentiments mem label).1.clusterId =
      "cluster-" ++ toString label ∧
    (cluster_info_step labels texts sentiments mem label).1.growthRate =
      ((((cluster_info_step labels texts sentiments mem label).1.size : ℚ) -
          (mem ((cluster_info_step labels texts sentiments mem label).1.clusterId) : ℚ)) /
        max (mem ((cluster_info_step labels texts sentiments mem label).1.clusterId) : ℚ) 1) *
        100 ∧
    (cluster_info_step labels texts sentiments mem label).2
      ((cluster_info_step labels texts sentiments mem label).1.clusterId) =
      (cluster_info_step labels texts sentiments mem label).1.size ∧
    (mem ((cluster_info_step labels texts sentiments mem label).1.clusterId) = 0 →
      (cluster_info_step labels texts sentiments mem label).1.growthRate =
        ((cluster_info_step labels texts sentiments mem label).1.size : ℚ) * 100) := by
  refine ⟨rfl, rfl, by simp [cluster_info_step], fun h0 => ?_⟩
  rw [show (cluster_info_step labels texts sentiments mem label).1.growthRate =
      ((((cluster_info_step labels texts sentiments mem label).1.size : ℚ) -
          (mem ((cluster_info_step labels texts sentiments mem label).1.clusterId) : ℚ)) /
        max (mem ((cluster_info_step labels texts sentiments mem label).1.clusterId) : ℚ) 1) *
        100 from rfl, h0]
  norm_num

/-- C7 witness: first appearance of label 0 with two members from empty
memory reports growth rate 200 and records size 2. -/
theorem c7_witness :
    (cluster_info_step [0, 0] ["a", "b"] [1 / 2, -(1 / 2)] (fun _ => 0) 0).1.growthRate =
      200 ∧
    (cluster_info_step [0, 0] ["a", "b"] [1 / 2, -(1 / 2)] (fun _ => 0) 0).2
      ((cluster_info_step [0, 0] ["a", "b"] [1 / 2, -(1 / 2)] (fun _ => 0) 0).1.clusterId) =
      2 := by
  have h := c7_growth_rate_memory [0, 0] ["a", "b"] [1 / 2, -(1 / 2)] (fun _ => 0) 0
    (by simp)
  refine ⟨?_, ?_⟩
  · rw [h.2.2.2 rfl, show (cluster_info_step [0, 0] ["a", "b"] [1 / 2, -(1 / 2)]
      (fun _ => 0) 0).1.size = 2 from rfl]
    norm_num
  · rw [h.2.2.1]
    rfl

/-! ### Claim C3 -/

/-- C3 counterexample: on the alternating batch `[0, 1/2, 0, 1/2, 0]` from a
fresh window, the 4 first differences are `[-1/2, 1/2, -1/2, 1/2]`; the claim
(mean of absolute deltas, scaled by 200 and clamped) predicts 100, but the
code takes the absolute value of the mean of the deltas and returns 0. -/
theorem c3_counterexample :
    (compute_sentiment_acceleration ⟨[], []⟩ [0, 1 / 2, 0, 1 / 2, 0]).1 = 0 ∧
    sentiment_accel_spec (boundedExtend 20 [] [0, 1 / 2, 0, 1 / 2, 0]) = 100 ∧
    ((0 : ℚ) ≠ 100) := by
  refine ⟨?_, ?_, by norm_num⟩
  · norm_num [compute_sentiment_acceleration, boundedExtend, meanQ,
      List.range_succ, List.getD]
  · norm_num [sentiment_accel_spec, boundedExtend, meanQ,
      List.range_succ, List.getD]
    simp only [show |(1 : ℚ) / 2| = 1 / 2 from abs_of_pos (by norm_num)]
    norm_num

/-- C3 amended: when a call supplies at least 2 sentiments and the window
holds at least 5 values after the append, the returned acceleration is the
absolute value of the mean of the 4 first differences over the 5 most recent
window entries, scaled by 200 and clamped to at most 100 (the mean of a
telescoping sum, hence `|newest - fifth-newest| / 4 * 200` clamped). -/
theorem c3_sentiment_acceleration (s : EscalationState) (sentiments : List ℚ)
    (h2 : 2 ≤ sentiments.length)
    (h5 : 5 ≤ (boundedExtend 20 s.sentiment_history sentiments).length) :
    (compute_sentiment_acceleration s sentiments).1 =
      min 100
        (|meanQ ((List.range 4).map (fun k =>
            (boundedExtend 20 s.sentiment_history sentiments).reverse.getD k 0 -
            (boundedExtend 20 s.sentiment_history sentiments).reverse.getD (k + 1) 0))| *
          200) := by
  unfold compute_sentiment_acceleration
  rw [if_neg (by omega)]
  simp only [if_pos h5]

/-- C3 witness: instantiation of the amended statement; the differences of
`[0, 1/2, 0, 1/2, 1/2]` have mean `1/8`, giving `25`. -/
theorem c3_witness :
    (compute_sentiment_acceleration ⟨[], []⟩ [0, 1 / 2, 0, 1 / 2, 1 / 2]).1 = 25 := by
  rw [c3_sentiment_acceleration ⟨[], []⟩ [0, 1 / 2, 0, 1 / 2, 1 / 2]
    (by simp) (by simp [length_boundedExtend])]
  norm_num [boundedExtend, meanQ, List.range_succ, List.getD]
  simp only [show |(1 : ℚ) / 8| = 1 / 8 from abs_of_pos (by norm_num)]
  norm_num [min_def]

/-! ### Claim C8 -/

/-- C8: the fallback univariate path returns 0.0 when the volume window holds
fewer than 5 samples; otherwise, with `m` the mean and `d` the population
standard deviation of the window, it returns 0.0 when `d < 0.1` and
`clamp(0, 100, (|volume - m| / d / 3) * 100)` rounded to 2 decimal places
otherwise. -/
theorem c8_fallback_zscore (s : AnomalyState) (v : ℤ) :
    (s.volume_history.length < 5 → (detect_zscore s v).1 = 0) ∧
    (5 ≤ s.volume_history.length →
      (Real.sqrt (popVar (s.volume_history.map (fun x : ℤ => (x : ℚ)))) < 1 / 10 →
        (detect_zscore s v).1 = 0) ∧
      (1 / 10 ≤ Real.sqrt (popVar (s.volume_history.map (fun x : ℤ => (x : ℚ)))) →
        (detect_zscore s v).1 =
          round2R (min 100 (max 0
            ((|(v : ℝ) - ((meanQ (s.volume_history.map (fun x : ℤ => (x : ℚ)))) : ℝ)| /
                Real.sqrt (popVar (s.volume_history.map (fun x : ℤ => (x : ℚ)))) / 3) *
              100))))) := by
  simp only [detect_zscore_fst]
  refine ⟨fun h => zscore_value_short _ _ h, fun h5 => ⟨fun hd => ?_, fun hd => ?_⟩⟩
  · simp only [zscore_value]
    rw [if_neg (by omega), if_pos hd]
  · have hdpos : (0 : ℝ) <
        Real.sqrt (popVar (s.volume_history.map (fun x : ℤ => (x : ℚ)))) :=
      lt_of_lt_of_le (by norm_num) hd
    simp only [zscore_value]
    rw [if_neg (by omega), if_neg (not_lt.mpr hd), abs_div, abs_of_pos hdpos]

/-- C8 witness: instantiations of all three branches — a 3-sample window
returns 0, a degenerate window `[10,10,10,10,10]` returns 0, and the window
`[0,0,0,0,10]` (mean 2, standard deviation 4) with volume 12 returns
`round((10/4/3)*100, 2) = 83.33`. -/
theorem c8_witness :
    (detect_zscore ⟨50, [1, 2, 3], [], [], 0, 1, [], false⟩ 7).1 = 0 ∧
    (detect_zscore ⟨50, [10, 10, 10, 10, 10], [], [], 0, 1, [], false⟩ 10).1 = 0 ∧
    (detect_zscore ⟨50, [0, 0, 0, 0, 10], [], [], 0, 1, [], false⟩ 12).1 =
      8333 / 100 := by
  refine ⟨(c8_fallback_zscore _ 7).1 (by norm_num), ?_, ?_⟩
  · refine ((c8_fallback_zscore _ 10).2 (by norm_num)).1 ?_
    rw [show (List.map (fun x : ℤ => (x : ℚ)) [10, 10, 10, 10, 10]) =
          List.replicate 5 (10 : ℚ) from rfl,
      popVar_replicate]
    norm_num [Real.sqrt_zero]
  · have hvar : popVar (List.map (fun x : ℤ => (x : ℚ)) [0, 0, 0, 0, 10]) = 16 := by
      norm_num [popVar, meanQ]
    have hmean : meanQ (List.map (fun x : ℤ => (x : ℚ)) [0, 0, 0, 0, 10]) = 2 := by
      norm_num [meanQ]
    have hsqrt : Real.sqrt ((16 : ℚ) : ℝ) = 4 := by
      rw [show ((16 : ℚ) : ℝ) = (4 : ℝ) ^ 2 by norm_num, Real.sqrt_sq (by norm_num)]
    have h := ((c8_fallback_zscore ⟨50, [0, 0, 0, 0, 10], [], [], 0, 1, [], false⟩ 12).2
      (by norm_num)).2
    rw [show (⟨50, [0, 0, 0, 0, 10], [], [], 0, 1, [], false⟩ :
        AnomalyState).volume_history = [0, 0, 0, 0, 10] from rfl] at h
    rw [hvar, hmean, hsqrt] at h
    rw [h (by norm_num)]
    have habs : |((12 : ℤ) : ℝ) - ((2 : ℚ) : ℝ)| = 10 := by
      rw [show ((12 : ℤ) : ℝ) - ((2 : ℚ) : ℝ) = 10 by push_cast; ring]
      exact abs_of_pos (by norm_num)
    rw [habs]
    rw [show (10 : ℝ) / 4 / 3 * 100 = 25000 / 300 by ring]
    rw [show max (0 : ℝ) (25000 / 300) = 25000 / 300 from max_eq_right (by norm_num)]
    rw [show min (100 : ℝ) (25000 / 300) = 25000 / 300 from min_eq_right (by norm_num)]
    rw [round2R, show (25000 : ℝ) / 300 * 100 = 25000 / 3 by ring]
    rw [show round ((25000 : ℝ) / 3) = 8333 from ?_]
    · norm_num
    · rw [round_eq, show (25000 : ℝ) / 3 + 1 / 2 = 50003 / 6 by ring]
      exact Int.floor_eq_iff.mpr ⟨by norm_num, by norm_num⟩

/-! ### Claim C5 -/

/-- Helper for C5: when the feature buffer (after appending and truncating)
still holds fewer than 10 vectors, `detect_advanced` falls through to the
z-score path in every case, so the returned score is the fallback value on
the updated volume history. -/
theorem detect_advanced_fallthrough (oc : IforestOutcome) (s : AnomalyState)
    (v : ℤ) (a g : ℚ)
    (hcap : ¬ s.window_size < s.feature_buffer.length + 1)
    (hsmall : s.feature_buffer.length + 1 < 10) :
    (detect_advanced oc s v a g).1 =
      zscore_value (boundedExtend s.window_size s.volume_history [v]) v := by
  have h1 : ¬ s.window_size < (s.feature_buffer ++ [extract_features v a g]).length := by
    simpa using hcap
  have h2 : ¬ 10 ≤ (s.feature_buffer ++ [extract_features v a g]).length := by
    simp only [List.length_append, List.length_cons, List.length_nil]
    omega
  simp only [detect_advanced]
  by_cases hg : s.use_fallback = false ∧
      10 ≤ (boundedExtend s.window_size s.volume_history [v]).length
  · rw [if_pos hg, if_neg h1, if_neg h2, detect_zscore_fst]
  · rw [if_neg hg, detect_zscore_fst]

/-- C5 counterexample: a fresh detector (sklearn available) receives 11
identical calls `detect_advanced(volume=5)` whose Isolation-Forest block
would score `-0.5` (mapping to 100) if it ran.  At the 11th call the mode is
Multivariate, the anomaly window holds at least 10 observations both before
and after the append, and no exception is raised — yet the feature buffer
holds only 2 vectors, so the inner `len(feature_buffer) >= 10` guard makes
the call fall through to the z-score fallback, which returns 0, not the
multivariate value 100 the claim requires. -/
theorem c5_counterexample :
    (run_advanced
        (List.replicate 11 (IforestOutcome.scores (-(1 / 2)), (5 : ℤ), (0 : ℚ), (0 : ℚ)))
        (anomalyInit true 50)).1 = 0 ∧
    multivariate_score_spec (-(1 / 2)) = 100 ∧ ((0 : ℝ) ≠ 100) := by
  refine ⟨?_, ?_, by norm_num⟩
  · rw [show (11 : ℕ) = 10 + 1 from rfl, run_advanced, List.replicate_succ',
      List.foldl_append, List.foldl_cons, List.foldl_nil]
    rw [detect_advanced_fallthrough _ _ _ _ _ (by decide) (by decide)]
    exact zscore_value_eq_replicate _ 11 5 5 (by decide) (by norm_num)
  · rw [multivariate_score_spec]
    rw [show (1 / 2 - ((-(1 / 2) : ℚ) : ℝ)) * 200 = 200 by push_cast; ring]
    rw [show min (100 : ℝ) 200 = 100 from min_eq_left (by norm_num)]
    rw [show max (0 : ℝ) 100 = 100 from max_eq_right (by norm_num)]
    rw [round2R, show (100 : ℝ) * 100 = ((10000 : ℤ) : ℝ) by norm_num, round_intCast]
    norm_num

/-- C5 amended: the multivariate value is returned only when, in addition to
Multivariate mode and a volume window of at least 10 observations, the
feature buffer itself holds at least 10 vectors after the current feature
vector is appended (the buffer only starts filling once the volume window
reaches 10, so the first several Multivariate-eligible calls still fall
through to the z-score fallback).  Under those conditions, with no internal
exception, the score is `clamp(0, 100, (0.5 - raw) * 200)` rounded to 2
decimal places. -/
theorem c5_multivariate_score (s : AnomalyState) (v : ℤ) (a g raw : ℚ)
    (hf : s.use_fallback = false)
    (hws : 10 ≤ s.window_size)
    (hvh : 9 ≤ s.volume_history.length)
    (hbuf : 9 ≤ s.feature_buffer.length) :
    (detect_advanced (IforestOutcome.scores raw) s v a g).1 =
      multivariate_score_spec raw := by
  simp only [detect_advanced]
  rw [if_pos ⟨hf, by rw [length_boundedExtend]; simp; omega⟩]
  by_cases hcap : s.window_size < (s.feature_buffer ++ [extract_features v a g]).length
  · rw [if_pos hcap, if_pos ?h10]
    case h10 =>
      rw [List.length_drop]
      simp only [List.length_append, List.length_cons, List.length_nil]
      omega
    rfl
  · rw [if_neg hcap, if_pos ?h10b]
    case h10b =>
      simp only [List.length_append, List.length_cons, List.length_nil]
      omega
    rfl

/-- C5 witness: a Multivariate-mode state with 9 buffered feature vectors and
9 volume observations receives one more call whose Isolation-Forest raw score
is `-0.5`; the returned score is `clamp(0,100,(0.5-(-0.5))*200) = 100`. -/
theorem c5_witness :
    (detect_advanced (IforestOutcome.scores (-(1 / 2)))
        ⟨50, List.replicate 9 0, [], [], 0, 1, List.replicate 9 [0, 0, 0], false⟩
        5 0 0).1 = 100 := by
  rw [c5_multivariate_score _ _ _ _ _ rfl (by norm_num) (by simp) (by simp)]
  rw [multivariate_score_spec]
  rw [show (1 / 2 - ((-(1 / 2) : ℚ) : ℝ)) * 200 = 200 by push_cast; ring]
  rw [show min (100 : ℝ) 200 = 100 from min_eq_left (by norm_num)]
  rw [show max (0 : ℝ) 100 = 100 from max_eq_right (by norm_num)]
  rw [round2R, show (100 : ℝ) * 100 = ((10000 : ℤ) : ℝ) by norm_num, round_intCast]
  norm_num

/-! ### Claim C2 -/

theorem detect_of_empty_history (s : AnomalyState) (v : ℤ)
    (h : s.volume_history = []) : detect s v = (0, s) := by
  rw [detect, detect_zscore, if_pos (by rw [h]; simp)]

theorem analyze_preserves_empty_anomaly (oc : List ℤ) (texts : List String)
    (sents : List ℚ) (st : AnalyzeState) (h : st.anomaly.volume_history = []) :
    (analyze oc texts sents st).2.anomaly.volume_history = [] ∧
    (analyze oc texts sents st).1.metrics.anomalyScore = 0 := by
  unfold analyze
  by_cases ht : texts = []
  · rw [if_pos ht]
    exact ⟨h, rfl⟩
  · rw [if_neg ht]
    have hd := detect_of_empty_history st.anomaly (texts.length : ℤ) h
    constructor
    · show (detect st.anomaly (texts.length : ℤ)).2.volume_history = []
      rw [hd]
      exact h
    · show (detect st.anomaly (texts.length : ℤ)).1 = 0
      rw [hd]

theorem analyze_fold_anomaly_zero (batches : List (List ℤ × List String × List ℚ)) :
    ∀ acc : List AnalyzeResponse × AnalyzeState,
      acc.2.anomaly.volume_history = [] →
      (∀ r ∈ acc.1, r.metrics.anomalyScore = 0) →
      (∀ r ∈ (batches.foldl
          (fun acc b =>
            ((acc.1 ++ [(analyze b.1 b.2.1 b.2.2 acc.2).1],
              (analyze b.1 b.2.1 b.2.2 acc.2).2))) acc).1,
        r.metrics.anomalyScore = 0) ∧
      (batches.foldl
          (fun acc b =>
            ((acc.1 ++ [(analyze b.1 b.2.1 b.2.2 acc.2).1],
              (analyze b.1 b.2.1 b.2.2 acc.2).2))) acc).2.anomaly.volume_history =
        [] := by
  induction batches with
  | nil => exact fun acc h1 h2 => ⟨h2, h1⟩
  | cons b bs ih =>
      intro acc h1 h2
      rw [List.foldl_cons]
      refine ih _ (analyze_preserves_empty_anomaly b.1 b.2.1 b.2.2 acc.2 h1).1 ?_
      intro r hr
      rcases List.mem_append.mp hr with hr | hr
      · exact h2 r hr
      · rw [List.mem_singleton.mp hr]
        exact (analyze_preserves_empty_anomaly b.1 b.2.1 b.2.2 acc.2 h1).2

/-- C2: the analyze endpoint computes the anomaly score through
`anomaly_service.detect`, which goes straight to `_detect_zscore` and never
appends the current volume to the volume history; hence, starting from a
detector whose volume history is empty, every response of any sequence of
non-empty batches carries `anomalyScore = 0.0`, and the volume history is
still empty afterwards. -/
theorem c2_endpoint_anomaly_always_zero
    (batches : List (List ℤ × List String × List ℚ)) (st : AnalyzeState)
    (h0 : st.anomaly.volume_history = [])
    (hne : ∀ b ∈ batches, b.2.1 ≠ []) :
    (∀ r ∈ (analyze_seq batches st).1, r.metrics.anomalyScore = 0) ∧
    (analyze_seq batches st).2.anomaly.volume_history = [] :=
  analyze_fold_anomaly_zero batches ([], st) h0 (by simp)

/-- C2 witness: two non-empty batches through the fresh service state leave
the anomaly volume history empty (so the z-score path keeps returning 0). -/
theorem c2_witness :
    (analyze_seq [([], ["help"], [1 / 2]), ([], ["aa", "bb"], [0, 0])]
        fresh_state).2.anomaly.volume_history = [] :=
  (c2_endpoint_anomaly_always_zero _ fresh_state rfl
    (by intro b hb; fin_cases hb <;> simp)).2

/-! ### Claim C1 -/

theorem compute_cluster_growth_rate_single (c : ClusterSummary) :
    compute_cluster_growth_rate [c] = c.growthRate := by
  simp [compute_cluster_growth_rate, meanQ]

theorem list_eq_single_getD (l : List α) (d : α) (h : l.length = 1) :
    l = [l.getD 0 d] := by
  cases l with
  | nil => simp at h
  | cons a t =>
      cases t with
      | nil => rfl
      | cons b t2 => simp at h

/-- C1: evaluation of the endpoint at the claim's own scenario (fresh state,
2 posts with sentiments `[0.9, -0.9]`).  `ClusteringService.cluster` returns
all-zero labels (with a cluster count of 0) for fewer than 3 embeddings, and
`get_cluster_info` summarizes label 0 as a genuine cluster of size 2, so the
response carries one cluster summary (first appearance: growth rate 200) and
metrics `clusterGrowthRate = 200`, `narrativeSpreadSpeed = 45` — not the
empty cluster list and all-zero metrics the claim states.  Only
`sentimentAcceleration = 0` and `anomalyScore = 0` match the claim. -/
theorem c1_small_batch_code_behavior :
    (analyze [] ["help", "fire"] [9 / 10, -(9 / 10)] fresh_state).1.clusters.length = 1 ∧
    ((analyze [] ["help", "fire"] [9 / 10, -(9 / 10)] fresh_state).1.clusters.getD 0
        ⟨"", [], 0, 0, 0, 0⟩).size = 2 ∧
    ((analyze [] ["help", "fire"] [9 / 10, -(9 / 10)] fresh_state).1.clusters.getD 0
        ⟨"", [], 0, 0, 0, 0⟩).growthRate = 200 ∧
    (analyze [] ["help", "fire"] [9 / 10, -(9 / 10)]
        fresh_state).1.metrics.sentimentAcceleration = 0 ∧
    (analyze [] ["help", "fire"] [9 / 10, -(9 / 10)]
        fresh_state).1.metrics.clusterGrowthRate = 200 ∧
    (analyze [] ["help", "fire"] [9 / 10, -(9 / 10)]
        fresh_state).1.metrics.anomalyScore = 0 ∧
    (analyze [] ["help", "fire"] [9 / 10, -(9 / 10)]
        fresh_state).1.metrics.narrativeSpreadSpeed = 45 := by
  have hlen :
      (analyze [] ["help", "fire"] [9 / 10, -(9 / 10)] fresh_state).1.clusters.length = 1 :=
    rfl
  have hsize :
      ((analyze [] ["help", "fire"] [9 / 10, -(9 / 10)] fresh_state).1.clusters.getD 0
        ⟨"", [], 0, 0, 0, 0⟩).size = 2 := rfl
  have hgrow :
      ((analyze [] ["help", "fire"] [9 / 10, -(9 / 10)] fresh_state).1.clusters.getD 0
        ⟨"", [], 0, 0, 0, 0⟩).growthRate = 200 := by
    rw [show ((analyze [] ["help", "fire"] [9 / 10, -(9 / 10)] fresh_state).1.clusters.getD 0
        ⟨"", [], 0, 0, 0, 0⟩).growthRate =
      (((2 : ℕ) : ℚ) - ((0 : ℕ) : ℚ)) / max ((0 : ℕ) : ℚ) 1 * 100 from rfl]
    norm_num
  have hone :
      (analyze [] ["help", "fire"] [9 / 10, -(9 / 10)] fresh_state).1.clusters =
        [(analyze [] ["help", "fire"] [9 / 10, -(9 / 10)] fresh_state).1.clusters.getD 0
          ⟨"", [], 0, 0, 0, 0⟩] :=
    list_eq_single_getD _ _ hlen
  refine ⟨hlen, hsize, hgrow, ?_, ?_, ?_, ?_⟩
  · show (compute_sentiment_acceleration ⟨[], []⟩ [9 / 10, -(9 / 10)]).1 = 0
    norm_num [compute_sentiment_acceleration, boundedExtend, meanQ]
  · show compute_cluster_growth_rate
      (analyze [] ["help", "fire"] [9 / 10, -(9 / 10)] fresh_state).1.clusters = 200
    rw [hone, compute_cluster_growth_rate_single, hgrow]
  · show (detect (anomalyInit true 50) 2).1 = 0
    rw [detect_of_empty_history _ _ rfl]
  · show compute_narrative_spread_speed
      (analyze [] ["help", "fire"] [9 / 10, -(9 / 10)] fresh_state).1.clusters 2 = 45
    rw [hone]
    unfold compute_narrative_spread_speed
    rw [if_neg (by simp)]
    rw [List.countP_cons]
    simp only [List.map_cons, List.map_nil, List.length_cons, List.length_nil,
      List.sum_cons, List.sum_nil, List.countP_nil, hsize, hgrow]
    norm_num

/-! ### Claim C10 -/

theorem map_fst_bump_mem (w : String) (l : List (String × ℕ))
    (h : w ∈ l.map Prod.fst) : (bump w l).map Prod.fst = l.map Prod.fst := by
  induction l with
  | nil => simp at h
  | cons p t ih =>
      by_cases hk : p.1 = w
      · rw [show bump w (p :: t) = (p.1, p.2 + 1) :: t by rw [bump]; simp [hk]]
        simp
      · rw [show bump w (p :: t) = (p.1, p.2) :: bump w t by rw [bump]; simp [hk]]
        have hw : w ∈ t.map Prod.fst := by
          rcases List.mem_map.mp h with ⟨q, hq, hq1⟩
          rcases List.mem_cons.mp hq with hq | hq
          · exact absurd (hq ▸ hq1) hk
          · exact hq1 ▸ List.mem_map_of_mem Prod.fst hq
        simp [ih hw]

theorem map_fst_bump_not_mem (w : String) (l : List (String × ℕ))
    (h : w ∉ l.map Prod.fst) : (bump w l).map Prod.fst = l.map Prod.fst ++ [w] := by
  induction l with
  | nil => simp [bump]
  | cons p t ih =>
      have hk : p.1 ≠ w := fun hk => h (by simp [hk])
      rw [show bump w (p :: t) = (p.1, p.2) :: bump w t by rw [bump]; simp [hk]]
      have ht : w ∉ t.map Prod.fst := fun hm => h (by simp [hm])
      simp [ih ht]

theorem nodup_map_fst_bump (w : String) (l : List (String × ℕ))
    (h : (l.map Prod.fst).Nodup) : ((bump w l).map Prod.fst).Nodup := by
  by_cases hw : w ∈ l.map Prod.fst
  · rw [map_fst_bump_mem w l hw]; exact h
  · rw [map_fst_bump_not_mem w l hw]
    simp [List.nodup_append, h, hw]

theorem mem_map_fst_bump (w k : String) (l : List (String × ℕ))
    (h : k ∈ (bump w l).map Prod.fst) : k = w ∨ k ∈ l.map Prod.fst := by
  by_cases hw : w ∈ l.map Prod.fst
  · rw [map_fst_bump_mem w l hw] at h; exact Or.inr h
  · rw [map_fst_bump_not_mem w l hw] at h
    rcases List.mem_append.mp h with h | h
    · exact Or.inr h
    · exact Or.inl (List.mem_singleton.mp h)

theorem keys_prop_foldl_tokens (ws : List String) :
    ∀ acc : List (String × ℕ),
      (∀ k ∈ acc.map Prod.fst, k ∉ stop_words ∧ 4 ≤ k.length) →
      (∀ w ∈ ws, 4 ≤ w.length) →
      ∀ k ∈ ((ws.foldl (fun a w => if w ∈ stop_words then a else bump w a)
          acc).map Prod.fst),
        k ∉ stop_words ∧ 4 ≤ k.length := by
  induction ws with
  | nil => exact fun acc hacc _ k hk => hacc k hk
  | cons w t ih =>
      intro acc hacc hws
      rw [List.foldl_cons]
      refine ih _ ?_ (fun w' hw' => hws w' (List.mem_cons_of_mem w hw'))
      by_cases hstop : w ∈ stop_words
      · rw [if_pos hstop]; exact hacc
      · rw [if_neg hstop]
        intro k hk
        rcases mem_map_fst_bump w k acc hk with hk | hk
        · exact hk ▸ ⟨hstop, hws w (List.mem_cons_self w t)⟩
        · exact hacc k hk

theorem keys_nodup_foldl_tokens (ws : List String) :
    ∀ acc : List (String × ℕ),
      (acc.map Prod.fst).Nodup →
      ((ws.foldl (fun a w => if w ∈ stop_words then a else bump w a)
          acc).map Prod.fst).Nodup := by
  induction ws with
  | nil => exact fun acc hacc => hacc
  | cons w t ih =>
      intro acc hacc
      rw [List.foldl_cons]
      refine ih _ ?_
      by_cases hstop : w ∈ stop_words
      · rw [if_pos hstop]; exact hacc
      · rw [if_neg hstop]; exact nodup_map_fst_bump w acc hacc

theorem tokenize_length (text : String) : ∀ w ∈ tokenize text, 4 ≤ w.length := by
  intro w hw
  have := (List.mem_filter.mp hw).2
  exact of_decide_eq_true this

theorem wordFreq_keys_aux (texts : List String) :
    ∀ acc : List (String × ℕ),
      (∀ k ∈ acc.map Prod.fst, k ∉ stop_words ∧ 4 ≤ k.length) →
      (acc.map Prod.fst).Nodup →
      (∀ k ∈ ((texts.foldl
          (fun acc text =>
            (tokenize text).foldl
              (fun a w => if w ∈ stop_words then a else bump w a) acc)
          acc).map Prod.fst),
        k ∉ stop_words ∧ 4 ≤ k.length) ∧
      ((texts.foldl
          (fun acc text =>
            (tokenize text).foldl
              (fun a w => if w ∈ stop_words then a else bump w a) acc)
          acc).map Prod.fst).Nodup := by
  induction texts with
  | nil => exact fun acc h1 h2 => ⟨h1, h2⟩
  | cons t ts ih =>
      intro acc h1 h2
      rw [List.foldl_cons]
      exact ih _ (keys_prop_foldl_tokens (tokenize t) acc h1 (tokenize_length t))
        (keys_nodup_foldl_tokens (tokenize t) acc h2)

theorem wordFreq_keys_prop (texts : List String) :
    ∀ k ∈ (wordFreq texts).map Prod.fst, k ∉ stop_words ∧ 4 ≤ k.length :=
  (wordFreq_keys_aux texts [] (by simp) (by simp)).1

theorem wordFreq_keys_nodup (texts : List String) :
    ((wordFreq texts).map Prod.fst).Nodup :=
  (wordFreq_keys_aux texts [] (by simp) (by simp)).2

theorem assoc_lookup_findIdx (l : List (String × ℕ))
    (hn : (l.map Prod.fst).Nodup) :
    ∀ (i : ℕ) (p : String × ℕ), l[i]? = some p →
      l.lookup p.1 = some p.2 ∧ l.findIdx (fun q => q.1 == p.1) = i := by
  induction l with
  | nil => intro i p h; simp at h
  | cons a t ih =>
      intro i p h
      have hn1 : a.1 ∉ t.map Prod.fst := by
        rw [List.map_cons] at hn
        exact (List.nodup_cons.mp hn).1
      have hn2 : (t.map Prod.fst).Nodup := by
        rw [List.map_cons] at hn
        exact (List.nodup_cons.mp hn).2
      cases i with
      | zero =>
          rw [List.getElem?_cons_zero] at h
          obtain rfl : a = p := by injection h
          constructor
          · simp [List.lookup]
          · simp [List.findIdx_cons]
      | succ j =>
          rw [List.getElem?_cons_succ] at h
          have hmem : p ∈ t := List.getElem?_mem h
          have hne : a.1 ≠ p.1 := by
            intro heq
            exact hn1 (heq ▸ List.mem_map_of_mem Prod.fst hmem)
          have ht := ih hn2 j p h
          constructor
          · rw [show List.lookup p.1 (a :: t) = List.lookup p.1 t by
              simp [List.lookup, beq_eq_false_iff_ne.mpr (Ne.symm hne)]]
            exact ht.1
          · rw [List.findIdx_cons,
              show (a.1 == p.1) = false from beq_eq_false_iff_ne.mpr hne]
            simp [ht.2]

theorem enum_member_facts (texts : List String) (a : ℕ × (String × ℕ))
    (ha : a ∈ (wordFreq texts).enum) :
    clusterFreq texts a.2.1 = a.2.2 ∧ first_seen texts a.2.1 = a.1 := by
  have h := List.mem_enum_iff_getElem?.mp ha
  have hf := assoc_lookup_findIdx (wordFreq texts) (wordFreq_keys_nodup texts) a.1 a.2 h
  exact ⟨by rw [clusterFreq, hf.1]; rfl, by rw [first_seen, hf.2]⟩

theorem freqLE_trans (a b c : ℕ × (String × ℕ))
    (hab : freqLE a b = true) (hbc : freqLE b c = true) : freqLE a c = true := by
  simp only [freqLE, decide_eq_true_eq] at *
  omega

theorem freqLE_total (a b : ℕ × (String × ℕ)) :
    (freqLE a b || freqLE b a) = true := by
  simp only [freqLE, Bool.or_eq_true, decide_eq_true_eq]
  omega

/-- C10: for every list of cluster member texts, the extracted keyword list
has at most 5 entries, contains no stop word and no token shorter than 4
letters, and is ordered by descending combined frequency, ties broken by the
first-encountered order of the frequency scan. -/
theorem c10_keyword_extraction (texts : List String) :
    (extract_keywords texts).length ≤ 5 ∧
    (∀ w ∈ extract_keywords texts, w ∉ stop_words ∧ 4 ≤ w.length) ∧
    (extract_keywords texts).Pairwise (fun w v =>
      clusterFreq texts v < clusterFreq texts w ∨
      (clusterFreq texts w = clusterFreq texts v ∧
        first_seen texts w < first_seen texts v)) := by
  have hperm := List.mergeSort_perm (wordFreq texts).enum freqLE
  have hmemsort : ∀ a ∈ (wordFreq texts).enum.mergeSort freqLE,
      a ∈ (wordFreq texts).enum := fun a ha => hperm.mem_iff.mp ha
  refine ⟨?_, ?_, ?_⟩
  · rw [extract_keywords, List.length_map, List.length_take]
    omega
  · intro w hw
    rcases List.mem_map.mp hw with ⟨a, ha, rfl⟩
    have ha2 : a ∈ (wordFreq texts).enum :=
      hmemsort a (List.mem_of_mem_take ha)
    have := List.getElem?_mem (List.mem_enum_iff_getElem?.mp ha2)
    exact wordFreq_keys_prop texts a.2.1 (List.mem_map_of_mem Prod.fst this)
  · rw [extract_keywords, List.pairwise_map]
    have hsorted : ((wordFreq texts).enum.mergeSort freqLE).Pairwise
        (fun a b => freqLE a b = true) :=
      List.sorted_mergeSort freqLE_trans freqLE_total (wordFreq texts).enum
    have hnodup : ((wordFreq texts).enum.mergeSort freqLE).Nodup :=
      hperm.nodup_iff.mpr
        ((List.enum_map_fst (wordFreq texts) ▸
          (List.nodup_range (wordFreq texts).length)).of_map)
    have hboth := hsorted.and hnodup
    refine ((hboth.sublist (List.take_sublist 5 _)).imp_of_mem ?_)
    intro a b ha hb hab
    have ha2 := hmemsort a (List.mem_of_mem_take ha)
    have hb2 := hmemsort b (List.mem_of_mem_take hb)
    have hfa := enum_member_facts texts a ha2
    have hfb := enum_member_facts texts b hb2
    rcases hab with ⟨hle, hne⟩
    simp only [freqLE, decide_eq_true_eq] at hle
    rcases hle with hlt | ⟨heq, hidx⟩
    · exact Or.inl (by rw [hfa.1, hfb.1]; exact hlt)
    · refine Or.inr ⟨by rw [hfa.1, hfb.1, heq], ?_⟩
      rw [hfa.2, hfb.2]
      rcases Nat.lt_or_ge a.1 b.1 with h | h
      · exact h
      · exfalso
        have hii : a.1 = b.1 := le_antisymm hidx h
        have h1 := List.mem_enum_iff_getElem?.mp ha2
        have h2 := List.mem_enum_iff_getElem?.mp hb2
        rw [hii, h2] at h1
        injection h1 with h3
        exact hne (Prod.ext hii h3.symm)

/-- C10 witness: instantiation at a concrete cluster whose only retained
token is `alpha`; the extracted keyword is neither a stop word nor shorter
than 4 letters. -/
theorem c10_witness :
    "alpha" ∈ extract_keywords ["alpha"] ∧
    "alpha" ∉ stop_words ∧ 4 ≤ String.length "alpha" := by
  have hm : "alpha" ∈ extract_keywords ["alpha"] := by
    rw [extract_keywords,
      show wordFreq ["alpha"] = [("alpha", 1)] by decide,
      show ([("alpha", 1)] : List (String × ℕ)).enum = [(0, ("alpha", 1))] from rfl,
      List.mergeSort_singleton]
    simp
  exact ⟨hm, (c10_keyword_extraction ["alpha"]).2.1 "alpha" hm⟩

end SignalSafe
